import Mathlib

/-!
Shallow embedding of the "Le Repertoire" business-management application
(Flask/MongoDB/Pydantic) for verification of its specification claims.

Strings from the Python source are modelled as `List Char`; the per-request
database sequence state is passed explicitly; `datetime.utcnow()` instants
are modelled as integers (seconds); Python `Decimal` arithmetic is modelled
over `ℚ` with explicit half-even quantization to cents.
-/

/-! ### Character and digit-string helpers -/

/-- Test for an ASCII decimal digit, the character class `\d` of the
source regexes and Python `str.isdigit` restricted to ASCII. -/
def isDigitChar (c : Char) : Bool := '0' ≤ c && c ≤ '9'

/-- Test for an ASCII uppercase letter, the character class `[A-Z]`. -/
def isUpperAZ (c : Char) : Bool := 'A' ≤ c && c ≤ 'Z'

/-- Decimal digit as a character, `0 ↦ '0'`, ..., `9 ↦ '9'`. -/
def digitChar (d : ℕ) : Char := Char.ofNat (48 + d)

/-- Fuel-indexed decimal printing of a natural number (most significant
digit first), the digit sequence produced by Python's `str`/`format`. -/
def natToDigitsAux : ℕ → ℕ → List Char
  | 0, _ => []
  | fuel + 1, n =>
    if n < 10 then [digitChar n]
    else natToDigitsAux fuel (n / 10) ++ [digitChar (n % 10)]

/-- Decimal digit characters of `n`, most significant first. -/
def natToDigits (n : ℕ) : List Char := natToDigitsAux (n + 1) n

/-- Python `f"{n:0{width}d}"`: decimal digits of `n` left-padded
with `'0'` to `width` characters. -/
def formatPad (width n : ℕ) : List Char :=
  List.replicate (width - (natToDigits n).length) '0' ++ natToDigits n

/-- Python `int` on a string of ASCII digits. -/
def parseNat (cs : List Char) : ℕ :=
  cs.foldl (fun acc c => 10 * acc + (c.toNat - 48)) 0

/-- Python `str.split("-")`. -/
def splitDash : List Char → List (List Char)
  | [] => [[]]
  | c :: rest =>
    match splitDash rest with
    | [] => [[c]]
    | h :: t => if c == '-' then [] :: h :: t else (c :: h) :: t

/-- Python `str.isdigit` (ASCII): nonempty and all decimal digits. -/
def isDigitStr (cs : List Char) : Bool := !cs.isEmpty && cs.all isDigitChar

/-- Python `str.lower` (ASCII range, which covers every string the
source compares against). -/
def strToLower (s : String) : String := ⟨s.data.map Char.toLower⟩

/-! ### Lemmas about the digit-string helpers -/

lemma natToDigitsAux_fuel (f₁ : ℕ) : ∀ (f₂ n : ℕ), n < f₁ → n < f₂ →
    natToDigitsAux f₁ n = natToDigitsAux f₂ n := by
  induction f₁ with
  | zero => intro f₂ n h₁ _; omega
  | succ f ih =>
    intro f₂ n h₁ h₂
    cases f₂ with
    | zero => omega
    | succ g =>
      simp only [natToDigitsAux]
      by_cases h : n < 10
      · simp [h]
      · simp only [h, if_false]
        exact congrArg (fun l => l ++ [digitChar (n % 10)])
          (ih g (n / 10) (by omega) (by omega))

lemma natToDigits_of_lt (n : ℕ) (h : n < 10) : natToDigits n = [digitChar n] := by
  simp [natToDigits, natToDigitsAux, h]

lemma natToDigits_of_ge (n : ℕ) (h : 10 ≤ n) :
    natToDigits n = natToDigits (n / 10) ++ [digitChar (n % 10)] := by
  conv_lhs => rw [natToDigits]
  simp only [natToDigitsAux, Nat.not_lt.mpr h, if_false]
  rw [natToDigits, natToDigitsAux_fuel n (n / 10 + 1) (n / 10) (by omega) (by omega)]

lemma isDigitChar_digitChar (d : ℕ) (h : d < 10) : isDigitChar (digitChar d) = true := by
  interval_cases d <;> decide

lemma digitChar_val (d : ℕ) (h : d < 10) : (digitChar d).toNat - 48 = d := by
  interval_cases d <;> decide

lemma natToDigits_all_digit (n : ℕ) : (natToDigits n).all isDigitChar = true := by
  induction n using Nat.strong_induction_on with
  | _ n ih =>
    by_cases h : n < 10
    · rw [natToDigits_of_lt n h]
      simp [isDigitChar_digitChar n h]
    · rw [natToDigits_of_ge n (by omega), List.all_append]
      simp [ih (n / 10) (by omega), isDigitChar_digitChar (n % 10) (by omega)]

lemma natToDigits_length_le (k : ℕ) : ∀ n, 0 < k → n < 10 ^ k →
    (natToDigits n).length ≤ k := by
  induction k with
  | zero => intro n h _; omega
  | succ k ih =>
    intro n _ hn
    by_cases h : n < 10
    · rw [natToDigits_of_lt n h]; simp
    · rw [natToDigits_of_ge n (by omega)]
      rw [List.length_append]
      have hk : 0 < k := by
        by_contra hk0
        have : k = 0 := by omega
        subst this
        simp at hn
        omega
      have : n / 10 < 10 ^ k := by
        rw [Nat.div_lt_iff_lt_mul (by norm_num)]
        calc n < 10 ^ (k + 1) := hn
        _ = 10 ^ k * 10 := by ring
      have := ih (n / 10) hk this
      simp only [List.length_cons, List.length_nil]
      omega

lemma natToDigits_length_ge (k : ℕ) : ∀ n, 10 ^ k ≤ n →
    k + 1 ≤ (natToDigits n).length := by
  induction k with
  | zero =>
    intro n _
    by_cases h : n < 10
    · rw [natToDigits_of_lt n h]; simp
    · rw [natToDigits_of_ge n (by omega)]; simp
  | succ k ih =>
    intro n hn
    have h10 : 10 ≤ n := by
      calc 10 = 10 ^ 1 := by norm_num
      _ ≤ 10 ^ (k + 1) := Nat.pow_le_pow_right (by norm_num) (by omega)
      _ ≤ n := hn
    rw [natToDigits_of_ge n h10]
    rw [List.length_append]
    have : 10 ^ k ≤ n / 10 := by
      rw [Nat.le_div_iff_mul_le (by norm_num)]
      calc 10 ^ k * 10 = 10 ^ (k + 1) := by ring
      _ ≤ n := hn
    have := ih (n / 10) this
    simp only [List.length_cons, List.length_nil]
    omega

lemma natToDigits_length_six (n : ℕ) (h₁ : 100000 ≤ n) (h₂ : n ≤ 999999) :
    (natToDigits n).length = 6 := by
  have hle := natToDigits_length_le 6 n (by norm_num) (by omega)
  have hge := natToDigits_length_ge 5 n (by norm_num; omega)
  omega

lemma natToDigits_length_two (n : ℕ) (h₁ : 10 ≤ n) (h₂ : n ≤ 99) :
    (natToDigits n).length = 2 := by
  have hle := natToDigits_length_le 2 n (by norm_num) (by omega)
  have hge := natToDigits_length_ge 1 n (by norm_num; omega)
  omega

lemma formatPad_eq_of_length (width n : ℕ) (h : (natToDigits n).length = width) :
    formatPad width n = natToDigits n := by
  simp [formatPad, h]

lemma parseNat_append_digit (xs : List Char) (c : Char) :
    parseNat (xs ++ [c]) = 10 * parseNat xs + (c.toNat - 48) := by
  simp [parseNat, List.foldl_append]

lemma parseNat_natToDigits (n : ℕ) : parseNat (natToDigits n) = n := by
  induction n using Nat.strong_induction_on with
  | _ n ih =>
    by_cases h : n < 10
    · rw [natToDigits_of_lt n h]
      show parseNat ([] ++ [digitChar n]) = n
      rw [parseNat_append_digit, digitChar_val n h]
      simp [parseNat]
    · rw [natToDigits_of_ge n (by omega), parseNat_append_digit,
        ih (n / 10) (by omega), digitChar_val (n % 10) (by omega)]
      omega

lemma isDigitChar_ne_dash (c : Char) (h : isDigitChar c = true) : (c == '-') = false := by
  by_cases hc : c = '-'
  · subst hc; simp [isDigitChar] at h
  · simp [hc]

/-! ### Embedding of utils/payroll/taxRates_utils.py

Python `Decimal` values are modelled as rationals.  `Decimal.quantize`
with exponent `0.01` under the default `ROUND_HALF_EVEN` context is
modelled by `roundCents`. -/

/-- Low Income Tax Offset parameters, `LITO_2024_25` in the source. -/
structure LitoParams where
  max_offset : ℚ
  base_threshold : ℚ
  taper_rate_1 : ℚ
  threshold_2 : ℚ
  taper_rate_2 : ℚ

/-- Source constant `LITO_2024_25`. -/
def LITO_2024_25 : LitoParams :=
  { max_offset := 700, base_threshold := 37500, taper_rate_1 := 5/100,
    threshold_2 := 45000, taper_rate_2 := 15/1000 }

/-- Source function `calculate_lito` (with `get_lito_params` returning
`LITO_2024_25` for the 2024-25 financial year). -/
def calculate_lito (annual : ℚ) : ℚ :=
  if annual ≤ LITO_2024_25.base_threshold then
    LITO_2024_25.max_offset
  else if annual ≤ LITO_2024_25.threshold_2 then
    max 0 (LITO_2024_25.max_offset -
      (annual - LITO_2024_25.base_threshold) * LITO_2024_25.taper_rate_1)
  else
    max 0 (LITO_2024_25.max_offset -
      (LITO_2024_25.threshold_2 - LITO_2024_25.base_threshold) * LITO_2024_25.taper_rate_1 -
      (annual - LITO_2024_25.threshold_2) * LITO_2024_25.taper_rate_2)

/-- One row `(min_income, max_income, rate, base_tax)` of the bracket
table; `max_income = none` models `float('inf')`. -/
structure TaxBracket where
  min_income : ℚ
  max_income : Option ℚ
  rate : ℚ
  base_tax : ℚ
deriving DecidableEq

/-- Source constant `TAX_BRACKETS_2024_25`. -/
def TAX_BRACKETS_2024_25 : List TaxBracket :=
  [⟨0, some 18200, 0, 0⟩,
   ⟨18201, some 45000, 19/100, 0⟩,
   ⟨45001, some 120000, 325/1000, 5092⟩,
   ⟨120001, some 180000, 37/100, 29467⟩,
   ⟨180001, none, 45/100, 51667⟩]

/-- The loop guard `annual >= min_income and annual <= max_income` of
`calculate_annual_tax`. -/
def inBracket (annual : ℚ) (b : TaxBracket) : Bool :=
  decide (b.min_income ≤ annual) &&
    (match b.max_income with
     | some m => decide (annual ≤ m)
     | none => true)

/-- Round a rational to an integer under `ROUND_HALF_EVEN`, the default
rounding of Python `Decimal.quantize`. -/
def roundHalfEven (x : ℚ) : ℤ :=
  if x - ⌊x⌋ < 1/2 then ⌊x⌋
  else if 1/2 < x - ⌊x⌋ then ⌊x⌋ + 1
  else if ⌊x⌋ % 2 = 0 then ⌊x⌋ else ⌊x⌋ + 1

/-- Python `value.quantize(Decimal('0.01'))`: round to two decimal places. -/
def roundCents (x : ℚ) : ℚ := (roundHalfEven (100 * x) : ℚ) / 100

/-- The bracket-scanning loop of the source function `calculate_annual_tax`. -/
def annual_tax_loop (annual : ℚ) : List TaxBracket → ℚ
  | [] => 0
  | b :: rest =>
    if inBracket annual b then
      roundCents (max 0 (b.base_tax + (annual - b.min_income) * b.rate - calculate_lito annual))
    else annual_tax_loop annual rest

/-- Source function `calculate_annual_tax` for the 2024-25 financial year. -/
def calculate_annual_tax (annual : ℚ) : ℚ :=
  annual_tax_loop annual TAX_BRACKETS_2024_25

/-- LITO exactly as worded in claim C1 (to be compared with the source's
`calculate_lito`): 700 for s ≤ 37500, then a 5% taper to 45000, then
max(0, 700 - 375 - 1.5% of the excess over 45000). -/
def lito_claim (s : ℚ) : ℚ :=
  if s ≤ 37500 then 700
  else if s ≤ 45000 then 700 - (5/100) * (s - 37500)
  else max 0 (700 - 375 - (15/1000) * (s - 45000))

lemma calculate_lito_eq_claim (s : ℚ) : calculate_lito s = lito_claim s := by
  simp only [calculate_lito, lito_claim, LITO_2024_25]
  split_ifs with h1 h2
  · rfl
  · rw [max_eq_right (by nlinarith)]
    ring
  · congr 1
    ring

/-- C1: for every annual salary s lying within one of the 2024-25 tax
brackets (bracket_min ≤ s ≤ bracket_max), `calculate_annual_tax s` equals
max(0, base_tax + (s - bracket_min) * rate - LITO(s)) rounded to two
decimal places, with LITO as stated in the claim. -/
theorem calculate_annual_tax_bracket_formula (s : ℚ) (b : TaxBracket)
    (hb : b ∈ TAX_BRACKETS_2024_25) (hin : inBracket s b = true) :
    calculate_annual_tax s =
      roundCents (max 0 (b.base_tax + (s - b.min_income) * b.rate - lito_claim s)) := by
  rw [← calculate_lito_eq_claim]
  fin_cases hb <;>
    simp only [inBracket, Bool.and_eq_true, Bool.and_true, decide_eq_true_eq] at hin <;>
    simp only [calculate_annual_tax, TAX_BRACKETS_2024_25, annual_tax_loop]
  · obtain ⟨ha, hb2⟩ := hin
    rw [if_pos (by simp only [inBracket, Bool.and_eq_true, decide_eq_true_eq]; exact ⟨ha, hb2⟩)]
  · obtain ⟨ha, hb2⟩ := hin
    rw [if_neg (by simp only [inBracket, Bool.and_eq_true, decide_eq_true_eq, not_and, not_le]; intro h'; linarith),
       if_pos (by simp only [inBracket, Bool.and_eq_true, decide_eq_true_eq]; exact ⟨ha, hb2⟩)]
  · obtain ⟨ha, hb2⟩ := hin
    rw [if_neg (by simp only [inBracket, Bool.and_eq_true, decide_eq_true_eq, not_and, not_le]; intro h'; linarith),
       if_neg (by simp only [inBracket, Bool.and_eq_true, decide_eq_true_eq, not_and, not_le]; intro h'; linarith),
       if_pos (by simp only [inBracket, Bool.and_eq_true, decide_eq_true_eq]; exact ⟨ha, hb2⟩)]
  · obtain ⟨ha, hb2⟩ := hin
    rw [if_neg (by simp only [inBracket, Bool.and_eq_true, decide_eq_true_eq, not_and, not_le]; intro h'; linarith),
       if_neg (by simp only [inBracket, Bool.and_eq_true, decide_eq_true_eq, not_and, not_le]; intro h'; linarith),
       if_neg (by simp only [inBracket, Bool.and_eq_true, decide_eq_true_eq, not_and, not_le]; intro h'; linarith),
       if_pos (by simp only [inBracket, Bool.and_eq_true, decide_eq_true_eq]; exact ⟨ha, hb2⟩)]
  · rw [if_neg (by simp only [inBracket, Bool.and_eq_true, decide_eq_true_eq, not_and, not_le]; intro h'; linarith),
       if_neg (by simp only [inBracket, Bool.and_eq_true, decide_eq_true_eq, not_and, not_le]; intro h'; linarith),
       if_neg (by simp only [inBracket, Bool.and_eq_true, decide_eq_true_eq, not_and, not_le]; intro h'; linarith),
       if_neg (by simp only [inBracket, Bool.and_eq_true, decide_eq_true_eq, not_and, not_le]; intro h'; linarith),
       if_pos (by simp only [inBracket, Bool.and_true, decide_eq_true_eq]; exact hin)]

/-- Witness for C1 at s = 50000 in the third bracket. -/
theorem calculate_annual_tax_bracket_formula_witness :
    ((⟨45001, some 120000, 325/1000, 5092⟩ : TaxBracket) ∈ TAX_BRACKETS_2024_25) ∧
    inBracket 50000 ⟨45001, some 120000, 325/1000, 5092⟩ = true ∧
    calculate_annual_tax 50000 =
      roundCents (max 0 ((5092 : ℚ) + ((50000 : ℚ) - 45001) * (325/1000) - lito_claim 50000)) :=
  ⟨List.Mem.tail _ (List.Mem.tail _ (List.Mem.head _)),
   by norm_num [inBracket],
   calculate_annual_tax_bracket_formula 50000 ⟨45001, some 120000, 325/1000, 5092⟩
     (List.Mem.tail _ (List.Mem.tail _ (List.Mem.head _))) (by norm_num [inBracket])⟩

/-- C9: every salary strictly inside one of the gaps between consecutive
bracket bounds of TAX_BRACKETS_2024_25 matches no bracket, so
`calculate_annual_tax` falls through the loop and returns 0. -/
theorem calculate_annual_tax_gap_zero (s : ℚ)
    (h : (18200 < s ∧ s < 18201) ∨ (45000 < s ∧ s < 45001) ∨
         (120000 < s ∧ s < 120001) ∨ (180000 < s ∧ s < 180001)) :
    calculate_annual_tax s = 0 := by
  simp only [calculate_annual_tax, TAX_BRACKETS_2024_25, annual_tax_loop]
  rcases h with ⟨h1, h2⟩ | ⟨h1, h2⟩ | ⟨h1, h2⟩ | ⟨h1, h2⟩ <;>
    rw [if_neg (by simp only [inBracket, Bool.and_eq_true, decide_eq_true_eq, not_and, not_le]; intro h'; linarith),
       if_neg (by simp only [inBracket, Bool.and_eq_true, decide_eq_true_eq, not_and, not_le]; intro h'; linarith),
       if_neg (by simp only [inBracket, Bool.and_eq_true, decide_eq_true_eq, not_and, not_le]; intro h'; linarith),
       if_neg (by simp only [inBracket, Bool.and_eq_true, decide_eq_true_eq, not_and, not_le]; intro h'; linarith),
       if_neg (by simp only [inBracket, Bool.and_true, decide_eq_true_eq, not_le]; linarith)]

/-- Witness for C9 at s = 18200.50, a salary above the tax-free threshold
on which the tax function returns 0. -/
theorem calculate_annual_tax_gap_zero_witness :
    ((18200 : ℚ) < 36401/2 ∧ (36401/2 : ℚ) < 18201) ∧ calculate_annual_tax (36401/2) = 0 :=
  ⟨by norm_num,
   calculate_annual_tax_gap_zero (36401/2) (Or.inl (by norm_num))⟩

/-! ### Embedding of services/auth/id_service.py

Each generator's MongoDB sequence state is passed explicitly: `sequence`
(resp. `current`) is the post-`$inc` counter value the
`find_one_and_update` call returned for this invocation.  A raised
`ValueError`/`InvalidIDError` is modelled as `none`. -/

/-- Source constant `IDService.WORK_AREA_CODES`. -/
def WORK_AREA_CODES : List (String × Char) :=
  [("admin", 'A'), ("bar", 'B'), ("cleaners", 'C'), ("functions", 'F'),
   ("guest services", 'G'), ("house keeping", 'H'), ("kitchen", 'K'),
   ("maintenance", 'M'), ("operations", 'O'), ("restaurant", 'R'),
   ("store room", 'S'), ("venue", 'V')]

/-- Source constant `IDService.AREA_NAMES`, the reverse mapping. -/
def AREA_NAMES : List (Char × String) := WORK_AREA_CODES.map (fun p => (p.2, p.1))

/-- The regex `^D[A-Z]-\d{6}$` used by the ID service. -/
def matchDPayrollFormat (s : List Char) : Bool :=
  match s with
  | 'D' :: c :: '-' :: rest => isUpperAZ c && rest.length == 6 && rest.all isDigitChar
  | _ => false

/-- Source method `IDService.generate_payroll_id`: look up the area code
for the lowercased name (raising for unknown areas) and format
`D{area_code}-{sequence:06d}`. -/
def generate_payroll_id (work_area_name : String) (sequence : ℕ) : Option (List Char) :=
  match WORK_AREA_CODES.lookup (strToLower work_area_name) with
  | none => none
  | some area_code => some ('D' :: area_code :: '-' :: formatPad 6 sequence)

/-- Source method `IDService.extract_area_code_from_payroll_id`. -/
def extract_area_code_from_payroll_id (payroll_id : List Char) : Option Char :=
  if matchDPayrollFormat payroll_id then payroll_id.get? 1 else none

/-- Source method `IDService.is_valid_area_code`. -/
def is_valid_area_code (area_code : Char) : Bool :=
  (AREA_NAMES.lookup area_code).isSome

/-- Source method `IDService.get_work_area_from_payroll_id`. -/
def get_work_area_from_payroll_id (payroll_id : List Char) : Option String :=
  match extract_area_code_from_payroll_id payroll_id with
  | none => none
  | some area_code => AREA_NAMES.lookup area_code

/-- Source method `IDService.validate_payroll_id` (format check, known
area code, and area-code/work-area consistency). -/
def idservice_validate_payroll_id (payroll_id : List Char) (work_area_name : String) : Bool :=
  if !matchDPayrollFormat payroll_id then false
  else
    match payroll_id.get? 1 with
    | none => false
    | some area_code =>
      if !is_valid_area_code area_code then false
      else
        match WORK_AREA_CODES.lookup (strToLower work_area_name) with
        | none => false
        | some expected_code => area_code == expected_code

/-- Source method `IDService._extract_id_component`: parts[1] of the
hyphen-split ID when it exists and is all digits, otherwise an
`InvalidIDError` (modelled as `none`). -/
def extract_id_component (id_str : List Char) : Option (List Char) :=
  match (splitDash id_str).get? 1 with
  | none => none
  | some p => if isDigitStr p then some p else none

/-- The regex `^EMP-\d{4}-\d{4}-\d{6}$`. -/
def matchLinkingFormat (s : List Char) : Bool :=
  match s with
  | ['E','M','P','-', a1,a2,a3,a4, '-', b1,b2,b3,b4, '-', c1,c2,c3,c4,c5,c6] =>
    [a1,a2,a3,a4,b1,b2,b3,b4,c1,c2,c3,c4,c5,c6].all isDigitChar
  | _ => false

/-- Source method `IDService.validate_linking_id`. -/
def validate_linking_id (linking_id company_id work_area_id : List Char) : Bool :=
  if !matchLinkingFormat linking_id then false
  else
    match extract_id_component company_id with
    | none => false
    | some company_num =>
      let work_area_num := (splitDash work_area_id).getLastD []
      let linking_parts := splitDash linking_id
      (linking_parts.length == 4) &&
      (linking_parts.get? 0 == some ['E','M','P']) &&
      (linking_parts.get? 1 == some company_num) &&
      (linking_parts.get? 2 == some work_area_num) &&
      (match linking_parts.get? 3 with
       | none => false
       | some p => isDigitStr p && decide (100000 ≤ parseNat p))

/-- The regex `^CNY-\d{4}$`. -/
def matchCNYFormat (s : List Char) : Bool :=
  match s with
  | ['C','N','Y','-', a1,a2,a3,a4] => [a1,a2,a3,a4].all isDigitChar
  | _ => false

/-- The regex `^VEN-\d{4}-\d{2}$`. -/
def matchVENFormat (s : List Char) : Bool :=
  match s with
  | ['V','E','N','-', a1,a2,a3,a4, '-', b1,b2] => [a1,a2,a3,a4,b1,b2].all isDigitChar
  | _ => false

/-- The regex `^WAI-\d{4}-\d{4}$`. -/
def matchWAIFormat (s : List Char) : Bool :=
  match s with
  | ['W','A','I','-', a1,a2,a3,a4, '-', b1,b2,b3,b4] =>
    [a1,a2,a3,a4,b1,b2,b3,b4].all isDigitChar
  | _ => false

/-- Source method `IDService.generate_venue_id`: `current` is the
sequence value after the `$inc` by 11; the value is wrapped into 10..99
by `(current - 10) % 90 + 10` and formatted `VEN-{company}-{wrapped:02d}`. -/
def generate_venue_id (company_id : List Char) (current : ℤ) : Option (List Char) :=
  match extract_id_component company_id with
  | none => none
  | some company_number =>
    let wrapped := (current - 10) % 90 + 10
    some (['V','E','N','-'] ++ company_number ++ '-' :: formatPad 2 wrapped.toNat)

/-- Source method `IDService.generate_work_area_id`: like
`generate_venue_id` but formatted `WAI-{company}-{venue_num}{wrapped:02d}`
where `venue_num` is the last hyphen-component of the venue ID. -/
def generate_work_area_id (company_id venue_id : List Char) (current : ℤ) : Option (List Char) :=
  match extract_id_component company_id with
  | none => none
  | some company_number =>
    let venue_num := (splitDash venue_id).getLastD []
    let wrapped := (current - 10) % 90 + 10
    some (['W','A','I','-'] ++ company_number ++ '-' :: (venue_num ++ formatPad 2 wrapped.toNat))

/-! ### Embedding of utils/validation_utils.py -/

/-- Source function `validation_utils.validate_payroll_id`, whose regex
is `^D[KBROFPSGW]-\d{6}$`. -/
def vu_validate_payroll_id (payroll_id : List Char) : Bool :=
  match payroll_id with
  | 'D' :: c :: '-' :: rest =>
    ['K','B','R','O','F','P','S','G','W'].contains c && rest.length == 6 && rest.all isDigitChar
  | _ => false

/-! ### Lemmas about the ID service -/

lemma lookup_work_area_code (s : String) (c : Char)
    (h : WORK_AREA_CODES.lookup s = some c) :
    isUpperAZ c = true ∧ AREA_NAMES.lookup c = some s := by
  simp only [WORK_AREA_CODES, List.lookup] at h
  repeat' split at h
  all_goals (try simp_all)
  all_goals (subst h; decide)

lemma formatPad_six (n : ℕ) (h₁ : 100000 ≤ n) (h₂ : n ≤ 999999) :
    (formatPad 6 n).length = 6 ∧ (formatPad 6 n).all isDigitChar = true := by
  rw [formatPad_eq_of_length 6 n (natToDigits_length_six n h₁ h₂)]
  exact ⟨natToDigits_length_six n h₁ h₂, natToDigits_all_digit n⟩

/-- C3 (code bug): the payroll ID generated for the recognized work area
"admin" with sequence value 100000 is DA-100000, which matches the
`D[A-Z]-\d{6}` format, yet `validation_utils.validate_payroll_id`
rejects it because its character class `[KBROFPSGW]` omits the area
code A (as well as C, H, M, V). -/
theorem payroll_id_generator_validator_mismatch :
    generate_payroll_id "admin" 100000 = some ['D','A','-','1','0','0','0','0','0'] ∧
    matchDPayrollFormat ['D','A','-','1','0','0','0','0','0'] = true ∧
    vu_validate_payroll_id ['D','A','-','1','0','0','0','0','0'] = false := by
  refine ⟨by decide, by decide, by decide⟩

/-- C4: for every recognized work area (any capitalization) and every
sequence value 100000 ≤ n ≤ 999999, the generated payroll ID
D{code}-{n:06d} passes `IDService.validate_payroll_id` against that work
area, and `IDService.get_work_area_from_payroll_id` recovers the
lowercase work-area name. -/
theorem payroll_id_roundtrip (w : String) (code : Char) (n : ℕ)
    (hw : WORK_AREA_CODES.lookup (strToLower w) = some code)
    (hn1 : 100000 ≤ n) (hn2 : n ≤ 999999) :
    generate_payroll_id w n = some ('D' :: code :: '-' :: formatPad 6 n) ∧
    idservice_validate_payroll_id ('D' :: code :: '-' :: formatPad 6 n) w = true ∧
    get_work_area_from_payroll_id ('D' :: code :: '-' :: formatPad 6 n) = some (strToLower w) := by
  obtain ⟨hup, hrev⟩ := lookup_work_area_code (strToLower w) code hw
  obtain ⟨hlen, hdig⟩ := formatPad_six n hn1 hn2
  have hmatch : matchDPayrollFormat ('D' :: code :: '-' :: formatPad 6 n) = true := by
    simp [matchDPayrollFormat, hup, hlen, hdig]
  refine ⟨?_, ?_, ?_⟩
  · simp [generate_payroll_id, hw]
  · simp [idservice_validate_payroll_id, hmatch, is_valid_area_code, hrev, hw, List.get?]
  · simp [get_work_area_from_payroll_id, extract_area_code_from_payroll_id, hmatch,
      List.get?, hrev]

/-- Witness for C4 at work area "Kitchen" and sequence 308020 (the
spec's example DK-308020). -/
theorem payroll_id_roundtrip_witness :
    (WORK_AREA_CODES.lookup (strToLower "Kitchen") = some 'K' ∧
      100000 ≤ 308020 ∧ 308020 ≤ 999999) ∧
    (generate_payroll_id "Kitchen" 308020 = some ('D' :: 'K' :: '-' :: formatPad 6 308020) ∧
     idservice_validate_payroll_id ('D' :: 'K' :: '-' :: formatPad 6 308020) "Kitchen" = true ∧
     get_work_area_from_payroll_id ('D' :: 'K' :: '-' :: formatPad 6 308020) =
       some (strToLower "Kitchen")) :=
  ⟨⟨by decide, by decide, by decide⟩,
   payroll_id_roundtrip "Kitchen" 'K' 308020 (by decide) (by decide) (by decide)⟩

lemma splitDash_linking (a1 a2 a3 a4 b1 b2 b3 b4 c1 c2 c3 c4 c5 c6 : Char)
    (h : [a1,a2,a3,a4,b1,b2,b3,b4,c1,c2,c3,c4,c5,c6].all isDigitChar = true) :
    splitDash ['E','M','P','-',a1,a2,a3,a4,'-',b1,b2,b3,b4,'-',c1,c2,c3,c4,c5,c6] =
      [['E','M','P'], [a1,a2,a3,a4], [b1,b2,b3,b4], [c1,c2,c3,c4,c5,c6]] := by
  simp only [List.all_cons, List.all_nil, Bool.and_eq_true, Bool.and_true] at h
  obtain ⟨d1, d2, d3, d4, e1, e2, e3, e4, f1, f2, f3, f4, f5, f6⟩ := h
  have hE : ('E' == '-') = false := by decide
  have hM : ('M' == '-') = false := by decide
  have hP : ('P' == '-') = false := by decide
  have hD : ('-' == '-') = true := by decide
  simp [splitDash, hE, hM, hP, hD,
    isDigitChar_ne_dash _ d1, isDigitChar_ne_dash _ d2, isDigitChar_ne_dash _ d3,
    isDigitChar_ne_dash _ d4, isDigitChar_ne_dash _ e1, isDigitChar_ne_dash _ e2,
    isDigitChar_ne_dash _ e3, isDigitChar_ne_dash _ e4, isDigitChar_ne_dash _ f1,
    isDigitChar_ne_dash _ f2, isDigitChar_ne_dash _ f3, isDigitChar_ne_dash _ f4,
    isDigitChar_ne_dash _ f5, isDigitChar_ne_dash _ f6]

lemma extract_id_component_eq_some (s p : List Char) :
    extract_id_component s = some p ↔
      (splitDash s).get? 1 = some p ∧ isDigitStr p = true := by
  unfold extract_id_component
  rcases hg : (splitDash s).get? 1 with _ | q
  · simp
  · by_cases hd : isDigitStr q = true
    · simp only [hd, if_true]
      constructor
      · rintro h; cases h; exact ⟨rfl, hd⟩
      · rintro ⟨h, -⟩; exact h
    · simp only [Bool.not_eq_true] at hd
      simp only [hd, if_false]
      constructor
      · rintro h; cases h
      · rintro ⟨h, hp⟩
        cases h
        rw [hd] at hp
        cases hp

lemma matchLinkingFormat_destruct (l : List Char) (h : matchLinkingFormat l = true) :
    ∃ p1 p2 p3, splitDash l = [['E','M','P'], p1, p2, p3] ∧
      p1.all isDigitChar = true ∧ p2.all isDigitChar = true ∧ p3.all isDigitChar = true ∧
      p1.length = 4 ∧ p2.length = 4 ∧ p3.length = 6 := by
  unfold matchLinkingFormat at h
  split at h
  · rename_i a1 a2 a3 a4 b1 b2 b3 b4 c1 c2 c3 c4 c5 c6
    refine ⟨[a1,a2,a3,a4], [b1,b2,b3,b4], [c1,c2,c3,c4,c5,c6],
      splitDash_linking a1 a2 a3 a4 b1 b2 b3 b4 c1 c2 c3 c4 c5 c6 h, ?_, ?_, ?_, rfl, rfl, rfl⟩ <;>
      simp only [List.all_cons, List.all_nil, Bool.and_eq_true, Bool.and_true] at h ⊢ <;>
      tauto
  · cases h

/-- The condition of claim C5, stated as in the claim: the linking ID
matches EMP-\d{4}-\d{4}-\d{6}; the second hyphen-separated component of
the company ID is all digits and equals the second component of the
linking ID; the final component of the work-area ID equals the third
component of the linking ID; and the final component of the linking ID
read as an integer is at least 100000. -/
def linking_id_claim (l c w : List Char) : Prop :=
  matchLinkingFormat l = true ∧
  (∃ p, (splitDash c).get? 1 = some p ∧ isDigitStr p = true ∧ (splitDash l).get? 1 = some p) ∧
  (splitDash l).get? 2 = some ((splitDash w).getLastD []) ∧
  (∃ q, (splitDash l).get? 3 = some q ∧ 100000 ≤ parseNat q)

/-- C5: `IDService.validate_linking_id l c w` returns True exactly under
the conditions stated in the claim, and False in every other case. -/
theorem validate_linking_id_iff (l c w : List Char) :
    validate_linking_id l c w = true ↔ linking_id_claim l c w := by
  constructor
  · intro h
    have hm : matchLinkingFormat l = true := by
      by_contra hm
      simp only [Bool.not_eq_true] at hm
      unfold validate_linking_id at h
      rw [hm] at h
      simp at h
    obtain ⟨p1, p2, p3, hsp, d1, d2, d3, len1, len2, len3⟩ := matchLinkingFormat_destruct l hm
    unfold validate_linking_id at h
    rw [hm] at h
    simp only [Bool.not_true, Bool.false_eq_true, if_false, ite_false, if_neg, not_false_iff] at h
    rcases hc : extract_id_component c with _ | cn
    · rw [hc] at h; cases h
    · rw [hc] at h
      simp only [hsp, List.get?, List.length_cons, List.length_nil, Option.some.injEq,
        beq_iff_eq, Bool.and_eq_true, decide_eq_true_eq, and_assoc] at h
      obtain ⟨-, -, h1, h2, h3, h4⟩ := h
      obtain ⟨hcp, hpd⟩ := (extract_id_component_eq_some c cn).mp hc
      refine ⟨hm, ⟨cn, hcp, hpd, ?_⟩, ?_, ⟨p3, ?_, h4⟩⟩
      · rw [hsp]; simp [List.get?, h1]
      · rw [hsp]; simp [List.get?, h2]
      · rw [hsp]; simp [List.get?]
  · rintro ⟨hm, ⟨p, hcp, hpd, hlp⟩, h2, ⟨q, h3, h4⟩⟩
    obtain ⟨p1, p2, p3, hsp, d1, d2, d3, len1, len2, len3⟩ := matchLinkingFormat_destruct l hm
    rw [hsp] at hlp h2 h3
    simp only [List.get?, Option.some.injEq] at hlp h2 h3
    have hc : extract_id_component c = some p :=
      (extract_id_component_eq_some c p).mpr ⟨hcp, hpd⟩
    have hne : p3.isEmpty = false := by
      cases p3
      · simp at len3
      · rfl
    unfold validate_linking_id
    rw [hm, hc]
    simp only [Bool.not_true, Bool.false_eq_true, if_false, ite_false]
    simp only [hsp, List.get?, List.length_cons, List.length_nil, Option.some.injEq,
      beq_iff_eq, Bool.and_eq_true, decide_eq_true_eq, and_assoc]
    subst h3
    refine ⟨trivial, trivial, hlp, h2, ?_, h4⟩
    simp [isDigitStr, hne, d3]

lemma splitDash_cny (a1 a2 a3 a4 : Char) (h : [a1,a2,a3,a4].all isDigitChar = true) :
    splitDash ['C','N','Y','-',a1,a2,a3,a4] = [['C','N','Y'], [a1,a2,a3,a4]] := by
  simp only [List.all_cons, List.all_nil, Bool.and_eq_true, Bool.and_true] at h
  obtain ⟨d1, d2, d3, d4⟩ := h
  have hC : ('C' == '-') = false := by decide
  have hN : ('N' == '-') = false := by decide
  have hY : ('Y' == '-') = false := by decide
  have hD : ('-' == '-') = true := by decide
  simp [splitDash, hC, hN, hY, hD, isDigitChar_ne_dash _ d1, isDigitChar_ne_dash _ d2,
    isDigitChar_ne_dash _ d3, isDigitChar_ne_dash _ d4]

lemma splitDash_ven (a1 a2 a3 a4 b1 b2 : Char)
    (h : [a1,a2,a3,a4,b1,b2].all isDigitChar = true) :
    splitDash ['V','E','N','-',a1,a2,a3,a4,'-',b1,b2] =
      [['V','E','N'], [a1,a2,a3,a4], [b1,b2]] := by
  simp only [List.all_cons, List.all_nil, Bool.and_eq_true, Bool.and_true] at h
  obtain ⟨d1, d2, d3, d4, e1, e2⟩ := h
  have hV : ('V' == '-') = false := by decide
  have hE : ('E' == '-') = false := by decide
  have hN : ('N' == '-') = false := by decide
  have hD : ('-' == '-') = true := by decide
  simp [splitDash, hV, hE, hN, hD, isDigitChar_ne_dash _ d1, isDigitChar_ne_dash _ d2,
    isDigitChar_ne_dash _ d3, isDigitChar_ne_dash _ d4, isDigitChar_ne_dash _ e1,
    isDigitChar_ne_dash _ e2]

lemma matchCNYFormat_destruct (s : List Char) (h : matchCNYFormat s = true) :
    ∃ a1 a2 a3 a4, s = ['C','N','Y','-',a1,a2,a3,a4] ∧
      [a1,a2,a3,a4].all isDigitChar = true := by
  unfold matchCNYFormat at h
  split at h
  · rename_i a1 a2 a3 a4
    exact ⟨a1, a2, a3, a4, rfl, h⟩
  · cases h

lemma matchVENFormat_destruct (s : List Char) (h : matchVENFormat s = true) :
    ∃ a1 a2 a3 a4 b1 b2, s = ['V','E','N','-',a1,a2,a3,a4,'-',b1,b2] ∧
      [a1,a2,a3,a4,b1,b2].all isDigitChar = true := by
  unfold matchVENFormat at h
  split at h
  · rename_i a1 a2 a3 a4 b1 b2
    exact ⟨a1, a2, a3, a4, b1, b2, rfl, h⟩
  · cases h

lemma formatPad_two_digits (m : ℕ) (h1 : 10 ≤ m) (h2 : m ≤ 99) :
    ∃ e f, formatPad 2 m = [e, f] ∧ isDigitChar e = true ∧ isDigitChar f = true ∧
      parseNat [e, f] = m := by
  have hlen := natToDigits_length_two m h1 h2
  have hall := natToDigits_all_digit m
  have hpar := parseNat_natToDigits m
  rw [formatPad_eq_of_length 2 m hlen]
  rcases hd : natToDigits m with _ | ⟨e, tail⟩
  · rw [hd] at hlen; simp at hlen
  · rcases tail with _ | ⟨f, tail2⟩
    · rw [hd] at hlen; simp at hlen
    · rcases tail2 with _ | ⟨g, tail3⟩
      · rw [hd] at hall hpar
        simp only [List.all_cons, List.all_nil, Bool.and_eq_true, Bool.and_true] at hall
        exact ⟨e, f, rfl, hall.1, hall.2, hpar⟩
      · rw [hd] at hlen; simp at hlen

lemma wrapped_bounds (cur : ℤ) :
    10 ≤ ((cur - 10) % 90 + 10).toNat ∧ ((cur - 10) % 90 + 10).toNat ≤ 99 := by
  have h0 : 0 ≤ (cur - 10) % 90 := Int.emod_nonneg _ (by norm_num)
  have h1 : (cur - 10) % 90 < 90 := Int.emod_lt_of_pos _ (by norm_num)
  omega

/-- C6: from a valid CNY-dddd company ID and any sequence state,
`generate_venue_id` yields an ID matching VEN-\d{4}-\d{2} whose final
two-digit component lies in 10..99, and from a valid venue ID
`generate_work_area_id` yields an ID matching WAI-\d{4}-\d{4} whose
final two digits lie in 10..99. -/
theorem venue_and_work_area_id_format (cid vid : List Char)
    (hc : matchCNYFormat cid = true) (hv : matchVENFormat vid = true) (cur cur2 : ℤ) :
    (∃ s, generate_venue_id cid cur = some s ∧ matchVENFormat s = true ∧
      10 ≤ parseNat (s.drop (s.length - 2)) ∧ parseNat (s.drop (s.length - 2)) ≤ 99) ∧
    (∃ s, generate_work_area_id cid vid cur2 = some s ∧ matchWAIFormat s = true ∧
      10 ≤ parseNat (s.drop (s.length - 2)) ∧ parseNat (s.drop (s.length - 2)) ≤ 99) := by
  obtain ⟨a1, a2, a3, a4, rfl, hdig⟩ := matchCNYFormat_destruct cid hc
  obtain ⟨v1, v2, v3, v4, w1, w2, rfl, hvdig⟩ := matchVENFormat_destruct vid hv
  have hex : extract_id_component ['C','N','Y','-',a1,a2,a3,a4] = some [a1,a2,a3,a4] := by
    rw [extract_id_component_eq_some]
    constructor
    · rw [splitDash_cny a1 a2 a3 a4 hdig]; rfl
    · simp [isDigitStr, hdig]
  constructor
  · obtain ⟨hm1, hm2⟩ := wrapped_bounds cur
    obtain ⟨e, f, hef, he, hf, hpar⟩ := formatPad_two_digits _ hm1 hm2
    refine ⟨['V','E','N','-',a1,a2,a3,a4,'-',e,f], ?_, ?_, ?_, ?_⟩
    · simp [generate_venue_id, hex, hef]
    · simp only [matchVENFormat]
      simp only [List.all_cons, List.all_nil, Bool.and_eq_true, Bool.and_true] at hdig ⊢
      exact ⟨hdig.1, hdig.2.1, hdig.2.2.1, hdig.2.2.2, he, hf⟩
    · show 10 ≤ parseNat [e, f]
      rw [hpar]; exact hm1
    · show parseNat [e, f] ≤ 99
      rw [hpar]; exact hm2
  · obtain ⟨hm1, hm2⟩ := wrapped_bounds cur2
    obtain ⟨e, f, hef, he, hf, hpar⟩ := formatPad_two_digits _ hm1 hm2
    have hlast : (splitDash ['V','E','N','-',v1,v2,v3,v4,'-',w1,w2]).getLast?.getD [] = [w1, w2] := by
      rw [splitDash_ven v1 v2 v3 v4 w1 w2 hvdig]; rfl
    refine ⟨['W','A','I','-',a1,a2,a3,a4,'-',w1,w2,e,f], ?_, ?_, ?_, ?_⟩
    · simp [generate_work_area_id, hex, hef, hlast]
    · simp only [matchWAIFormat]
      simp only [List.all_cons, List.all_nil, Bool.and_eq_true, Bool.and_true] at hdig hvdig ⊢
      exact ⟨hdig.1, hdig.2.1, hdig.2.2.1, hdig.2.2.2,
        hvdig.2.2.2.2.1, hvdig.2.2.2.2.2, he, hf⟩
    · show 10 ≤ parseNat [e, f]
      rw [hpar]; exact hm1
    · show parseNat [e, f] ≤ 99
      rw [hpar]; exact hm2

/-- Witness for C6 at company CNY-2976, venue VEN-2976-30 (the spec's
examples) and sequence state 41 for both generators. -/
theorem venue_and_work_area_id_format_witness :
    (matchCNYFormat ['C','N','Y','-','2','9','7','6'] = true ∧
     matchVENFormat ['V','E','N','-','2','9','7','6','-','3','0'] = true) ∧
    ((∃ s, generate_venue_id ['C','N','Y','-','2','9','7','6'] 41 = some s ∧
        matchVENFormat s = true ∧
        10 ≤ parseNat (s.drop (s.length - 2)) ∧ parseNat (s.drop (s.length - 2)) ≤ 99) ∧
     (∃ s, generate_work_area_id ['C','N','Y','-','2','9','7','6']
          ['V','E','N','-','2','9','7','6','-','3','0'] 41 = some s ∧
        matchWAIFormat s = true ∧
        10 ≤ parseNat (s.drop (s.length - 2)) ∧ parseNat (s.drop (s.length - 2)) ≤ 99)) :=
  ⟨⟨by decide, by decide⟩,
   venue_and_work_area_id_format ['C','N','Y','-','2','9','7','6']
     ['V','E','N','-','2','9','7','6','-','3','0'] (by decide) (by decide) 41 41⟩

/-! ### Embedding of models/business_entities/companies.py (ACN validation) -/

/-- The pattern declared on the ACN field, regex `^\d{3} \d{3} \d{3}$`. -/
def matchACNFieldPattern (s : List Char) : Bool :=
  match s with
  | [a1,a2,a3,' ',b1,b2,b3,' ',c1,c2,c3] => [a1,a2,a3,b1,b2,b3,c1,c2,c3].all isDigitChar
  | _ => false

/-- Source validator `BusinessEntity.format_ACN`: remove spaces, require
exactly 9 remaining characters, and reformat as `XXX XXX XXX`; the
raised `ValueError` is modelled as `none`. -/
def format_ACN (v : List Char) : Option (List Char) :=
  let clean := v.filter (fun c => !(c == ' '))
  if clean.length ≠ 9 then none
  else some (clean.take 3 ++ ' ' :: ((clean.drop 3).take 3 ++ ' ' :: (clean.drop 6).take 3))

/-- Acceptance of an ACN candidate by the `BusinessEntity` model: the
declared field pattern and the `format_ACN` validator must both pass. -/
def businessEntity_accepts_ACN (v : List Char) : Bool :=
  matchACNFieldPattern v && (format_ACN v).isSome

/-- Source function `validate_acn` from
routes/onboarding/companyOnboarding_routes.py: keep only the digit
characters of the candidate, require exactly nine, then apply the ACN
checksum: weight the first eight digits by 8,7,6,5,4,3,2,1, take the
weighted sum modulo 10; the check digit is 10 minus that remainder (0
when the remainder is 0) and must equal the ninth digit. -/
def validate_acn (acn : List Char) : Bool :=
  let acn_digits := acn.filter isDigitChar
  if acn_digits.length ≠ 9 then false
  else
    match acn_digits with
    | [d1,d2,d3,d4,d5,d6,d7,d8,d9] =>
      let weighted_sum := 8 * (d1.toNat - 48) + 7 * (d2.toNat - 48) +
        6 * (d3.toNat - 48) + 5 * (d4.toNat - 48) + 4 * (d5.toNat - 48) +
        3 * (d6.toNat - 48) + 2 * (d7.toNat - 48) + 1 * (d8.toNat - 48)
      let remainder := weighted_sum % 10
      let check_digit := if remainder ≠ 0 then 10 - remainder else 0
      check_digit == d9.toNat - 48
    | _ => false

/-- Counterexample to C2: the candidate "000 000 001" has nine digits
whose ACN checksum is invalid (the source's own checksum routine
`validate_acn` rejects it: the check digit for 00000000 is 0, not 1),
yet the BusinessEntity ACN validation accepts it. -/
theorem acn_checksum_not_enforced :
    businessEntity_accepts_ACN ['0','0','0',' ','0','0','0',' ','0','0','1'] = true ∧
    validate_acn ['0','0','0',' ','0','0','0',' ','0','0','1'] = false :=
  ⟨by decide, by decide⟩

lemma isDigitChar_ne_space (c : Char) (h : isDigitChar c = true) : (c == ' ') = false := by
  by_cases hc : c = ' '
  · subst hc; simp [isDigitChar] at h
  · simp [hc]

/-- C2 (amended): the BusinessEntity ACN validation checks only the
\d{3} \d{3} \d{3} shape and that nine characters remain after removing
spaces; every candidate matching the field pattern is accepted, with no
checksum verification. -/
theorem acn_accepts_nine_digit_pattern (v : List Char)
    (h : matchACNFieldPattern v = true) : businessEntity_accepts_ACN v = true := by
  unfold businessEntity_accepts_ACN
  rw [h, Bool.true_and]
  unfold matchACNFieldPattern at h
  split at h
  · rename_i a1 a2 a3 b1 b2 b3 c1 c2 c3
    simp only [List.all_cons, List.all_nil, Bool.and_eq_true, Bool.and_true] at h
    obtain ⟨d1, d2, d3, d4, d5, d6, d7, d8, d9⟩ := h
    have hsp : (' ' == ' ') = true := by decide
    simp [format_ACN, hsp, isDigitChar_ne_space _ d1, isDigitChar_ne_space _ d2,
      isDigitChar_ne_space _ d3, isDigitChar_ne_space _ d4, isDigitChar_ne_space _ d5,
      isDigitChar_ne_space _ d6, isDigitChar_ne_space _ d7, isDigitChar_ne_space _ d8,
      isDigitChar_ne_space _ d9]
  · cases h

/-- Witness for the amended C2 at the checksum-invalid candidate
"000 000 001". -/
theorem acn_accepts_nine_digit_pattern_witness :
    matchACNFieldPattern ['0','0','0',' ','0','0','0',' ','0','0','1'] = true ∧
    businessEntity_accepts_ACN ['0','0','0',' ','0','0','0',' ','0','0','1'] = true :=
  ⟨by decide,
   acn_accepts_nine_digit_pattern ['0','0','0',' ','0','0','0',' ','0','0','1'] (by decide)⟩

/-! ### Embedding of models/business_entities/venues.py -/

/-- The recognized work areas listed in `WorkArea.validate_work_area_name`. -/
def valid_areas : List String :=
  ["admin", "bar", "cleaners", "functions", "guest services",
   "house keeping", "kitchen", "maintenance", "operations",
   "restaurant", "store room", "venue"]

/-- Source validator `WorkArea.validate_work_area_name`: raise ValueError
(modelled as `none`) unless the lowercased name is recognized, otherwise
return the value unchanged. -/
def validate_work_area_name (v : String) : Option String :=
  if !(valid_areas.contains (strToLower v)) then none else some v

/-- C7: `validate_work_area_name` accepts exactly the strings whose
lowercase form is one of the twelve recognized areas, returning the value
unchanged, and raises ValueError (modelled `none`) on every other string. -/
theorem validate_work_area_name_spec (v : String) :
    (validate_work_area_name v = some v ↔ valid_areas.contains (strToLower v) = true) ∧
    (validate_work_area_name v = none ↔ valid_areas.contains (strToLower v) = false) := by
  unfold validate_work_area_name
  by_cases h : valid_areas.contains (strToLower v) = true
  · rw [h]
    simp
  · simp only [Bool.not_eq_true] at h
    rw [h]
    simp

/-! ### Embedding of modules/permissionsManager_module.py (permission cache)

The in-process cache `self.cache` maps cache keys to `(result, timestamp)`
pairs; it is modelled as an association list, `datetime.utcnow()` as an
integer number of seconds passed in explicitly. -/

/-- Source constant `PermissionManager.cache_timeout` (5 minutes). -/
def cache_timeout : ℤ := 300

/-- Source method `PermissionManager._cache_permission`: store
`(result, now)` under the key; the Python dict assignment overwrites any
previous entry for that key. -/
def cache_permission (cache : List (String × Bool × ℤ)) (key : String) (result : Bool)
    (now : ℤ) : List (String × Bool × ℤ) :=
  (key, result, now) :: cache.filter (fun e => !(e.1 == key))

/-- Source method `PermissionManager._get_cached_permission`: if the key
is present and its timestamp is younger than `cache_timeout`, return the
stored result; if present but expired, delete the entry and return None.
The resulting cache state is returned alongside. -/
def get_cached_permission (cache : List (String × Bool × ℤ)) (key : String)
    (now : ℤ) : Option Bool × List (String × Bool × ℤ) :=
  match cache.find? (fun e => e.1 == key) with
  | none => (none, cache)
  | some (_, result, timestamp) =>
    if now - timestamp < cache_timeout then (some result, cache)
    else (none, cache.filter (fun e => !(e.1 == key)))

/-- C8: the permission cache is a TTL cache with a 300-second timeout: a
result stored at time t is returned by a later lookup at time t' exactly
when t' - t < 300; at or beyond 300 seconds the lookup returns None and
the entry is deleted, so no cached result older than 5 minutes is ever
reused. -/
theorem permission_cache_ttl (cache : List (String × Bool × ℤ)) (key : String)
    (r : Bool) (t t' : ℤ) (h : t ≤ t') :
    cache_timeout = 300 ∧
    ((get_cached_permission (cache_permission cache key r t) key t').1 = some r ↔
      t' - t < 300) ∧
    (300 ≤ t' - t →
      (get_cached_permission (cache_permission cache key r t) key t').1 = none ∧
      (get_cached_permission (cache_permission cache key r t) key t').2.find?
        (fun e => e.1 == key) = none) := by
  have hself : (key == key) = true := by simp
  have hfind : (cache_permission cache key r t).find? (fun e => e.1 == key) =
      some (key, r, t) := by
    simp [cache_permission, List.find?]
  refine ⟨rfl, ?_, ?_⟩
  · simp only [get_cached_permission, hfind]
    by_cases hexp : t' - t < cache_timeout
    · rw [if_pos hexp]
      simpa [cache_timeout] using hexp
    · rw [if_neg hexp]
      simp only [cache_timeout] at hexp
      constructor
      · rintro h'; cases h'
      · intro h'; omega
  · intro hge
    simp only [get_cached_permission, hfind]
    rw [if_neg (show ¬ (t' - t < cache_timeout) by simp only [cache_timeout]; omega)]
    refine ⟨rfl, ?_⟩
    rw [List.find?_eq_none]
    intro e he
    rw [List.mem_filter] at he
    have := he.2
    simp only [Bool.not_eq_true'] at this
    rw [this]
    simp

/-- Witness for C8: a fresh lookup 100 seconds after storing returns the
stored result. -/
theorem permission_cache_ttl_witness :
    ((0 : ℤ) ≤ 100) ∧
    (cache_timeout = 300 ∧
     ((get_cached_permission (cache_permission [] "perm:u1:view_logs:" true 0)
        "perm:u1:view_logs:" 100).1 = some true ↔ (100 : ℤ) - 0 < 300) ∧
     (300 ≤ (100 : ℤ) - 0 →
       (get_cached_permission (cache_permission [] "perm:u1:view_logs:" true 0)
         "perm:u1:view_logs:" 100).1 = none ∧
       (get_cached_permission (cache_permission [] "perm:u1:view_logs:" true 0)
         "perm:u1:view_logs:" 100).2.find? (fun e => e.1 == "perm:u1:view_logs:") = none)) :=
  ⟨by decide, permission_cache_ttl [] "perm:u1:view_logs:" true 0 100 (by decide)⟩

/-! ### Embedding of utils/rate_limiter.py

All operations of `RateLimiter` touch only the entry of the key they are
given, so the per-key state (the `attempts[key]` list of timestamps and
the optional `blocks[key]` expiry) is modelled directly; a key absent
from the defaultdicts is the state `⟨[], none⟩`.  `datetime.utcnow()` is
passed in explicitly as an integer number of seconds. -/

/-- Constructor parameters of `RateLimiter`. -/
structure RateLimiter where
  max_attempts : ℕ
  window_seconds : ℤ
  block_seconds : ℤ

/-- Per-key state: recorded attempt timestamps and the block expiry. -/
structure RLState where
  attempts : List ℤ
  blockUntil : Option ℤ
deriving DecidableEq

/-- Source method `RateLimiter._cleanup`: drop attempts at or before
`now - window_seconds` and an expired block. -/
def rl_cleanup (rl : RateLimiter) (now : ℤ) (s : RLState) : RLState :=
  { attempts := s.attempts.filter (fun a => decide (now - rl.window_seconds < a)),
    blockUntil :=
      match s.blockUntil with
      | some b => if b < now then none else some b
      | none => none }

/-- Source method `RateLimiter.is_blocked`: clean up, then report whether
a block is present and not yet reached.  The mutated state is returned
alongside. -/
def rl_is_blocked (rl : RateLimiter) (now : ℤ) (s : RLState) : Bool × RLState :=
  let s' := rl_cleanup rl now s
  match s'.blockUntil with
  | some b => (decide (now < b), s')
  | none => (false, s')

/-- Source method `RateLimiter.record_attempt`: on success clear the
key's attempts and block; otherwise clean up, append the attempt, and
set a block of `block_seconds` once `max_attempts` attempts are stored. -/
def rl_record_attempt (rl : RateLimiter) (now : ℤ) (success : Bool) (s : RLState) : RLState :=
  if success then { attempts := [], blockUntil := none }
  else
    let s' := rl_cleanup rl now s
    let atts := s'.attempts ++ [now]
    if rl.max_attempts ≤ atts.length then
      { attempts := atts, blockUntil := some (now + rl.block_seconds) }
    else
      { attempts := atts, blockUntil := s'.blockUntil }

/-- A sequence of failed attempts at the given instants. -/
def rl_record_failures (rl : RateLimiter) (ts : List ℤ) (s : RLState) : RLState :=
  ts.foldl (fun st t => rl_record_attempt rl t false st) s

lemma rl_record_failures_spec (rl : RateLimiter) (ts : List ℤ)
    (hsort : ts.Pairwise (· ≤ ·)) (hlen : ts.length ≤ rl.max_attempts)
    (hwin : ∀ a ∈ ts, ∀ b ∈ ts, a - b < rl.window_seconds) :
    rl_record_failures rl ts ⟨[], none⟩ =
      ⟨ts, if ts.length = rl.max_attempts
           then ts.getLast?.map (· + rl.block_seconds) else none⟩ := by
  induction ts using List.reverseRecOn with
  | nil =>
    simp only [rl_record_failures, List.foldl_nil, List.length_nil, List.getLast?]
    split_ifs <;> rfl
  | append_singleton l t ih =>
    have hsortl : l.Pairwise (· ≤ ·) :=
      (List.pairwise_append.mp hsort).1
    have hle : ∀ a ∈ l, a ≤ t := by
      intro a ha
      exact (List.pairwise_append.mp hsort).2.2 a ha t (List.mem_singleton_self t)
    have hlenl : l.length < rl.max_attempts := by
      rw [List.length_append, List.length_cons, List.length_nil] at hlen
      omega
    have hwinl : ∀ a ∈ l, ∀ b ∈ l, a - b < rl.window_seconds := by
      intro a ha b hb
      exact hwin a (List.mem_append_left _ ha) b (List.mem_append_left _ hb)
    have ihl := ih hsortl (le_of_lt hlenl) hwinl
    rw [if_neg (by omega)] at ihl
    unfold rl_record_failures at ihl ⊢
    rw [List.foldl_append, ihl]
    simp only [List.foldl_cons, List.foldl_nil]
    unfold rl_record_attempt
    rw [if_neg (by simp)]
    have hkeep : (rl_cleanup rl t ⟨l, none⟩).attempts = l := by
      simp only [rl_cleanup]
      apply List.filter_eq_self.mpr
      intro a ha
      have := hwin t (List.mem_append_right _ (List.mem_singleton_self t)) a
        (List.mem_append_left _ ha)
      simp only [decide_eq_true_eq]
      omega
    have hblk : (rl_cleanup rl t ⟨l, none⟩).blockUntil = none := rfl
    simp only [hkeep, hblk]
    rw [List.length_append, List.length_cons, List.length_nil]
    by_cases hfull : rl.max_attempts ≤ l.length + 1
    · rw [if_pos hfull, if_pos (show l.length + (0 + 1) = rl.max_attempts by omega)]
      rw [List.getLast?_concat]
      rfl
    · rw [if_neg hfull, if_neg (show ¬ l.length + (0 + 1) = rl.max_attempts by omega)]

/-- C10: after `max_attempts` failed attempts on a key within
`window_seconds`, `is_blocked` answers true at every instant less than
`block_seconds` after the blocking call and false once `block_seconds`
have elapsed; and a single successful `record_attempt` clears the key's
attempts and block, so an immediately following `is_blocked` answers
false. -/
theorem rate_limiter_block_and_clear (rl : RateLimiter) (ts : List ℤ) (tl : ℤ)
    (hsort : ts.Pairwise (· ≤ ·)) (hlen : ts.length = rl.max_attempts)
    (hwin : ∀ a ∈ ts, ∀ b ∈ ts, a - b < rl.window_seconds)
    (hlast : ts.getLast? = some tl) :
    (∀ t', t' - tl < rl.block_seconds →
      (rl_is_blocked rl t' (rl_record_failures rl ts ⟨[], none⟩)).1 = true) ∧
    (∀ t', rl.block_seconds ≤ t' - tl →
      (rl_is_blocked rl t' (rl_record_failures rl ts ⟨[], none⟩)).1 = false) ∧
    (∀ (s : RLState) (t t' : ℤ),
      rl_record_attempt rl t true s = ⟨[], none⟩ ∧
      (rl_is_blocked rl t' (rl_record_attempt rl t true s)).1 = false) := by
  have hstate : rl_record_failures rl ts ⟨[], none⟩ =
      ⟨ts, some (tl + rl.block_seconds)⟩ := by
    rw [rl_record_failures_spec rl ts hsort (le_of_eq hlen) hwin, if_pos hlen, hlast]
    rfl
  rw [hstate]
  refine ⟨?_, ?_, ?_⟩
  · intro t' ht
    simp only [rl_is_blocked, rl_cleanup]
    rw [if_neg (show ¬ (tl + rl.block_seconds < t') by omega)]
    simp only [decide_eq_true_eq]
    omega
  · intro t' ht
    simp only [rl_is_blocked, rl_cleanup]
    by_cases hb : tl + rl.block_seconds < t'
    · rw [if_pos hb]
    · rw [if_neg hb]
      simp only [decide_eq_false_iff_not, not_lt]
      omega
  · intro s t t'
    exact ⟨rfl, rfl⟩

/-- Witness for C10: limiter (2 attempts, 60 s window, 300 s block),
failures at instants 0 and 10, checked at instants 100 (blocked) and 400
(expired), and a successful attempt clearing the state ⟨[5], some 7⟩. -/
theorem rate_limiter_block_and_clear_witness :
    (List.Pairwise (· ≤ ·) [(0 : ℤ), 10] ∧
     ([(0 : ℤ), 10].length = 2) ∧
     (∀ a ∈ [(0 : ℤ), 10], ∀ b ∈ [(0 : ℤ), 10], a - b < 60) ∧
     [(0 : ℤ), 10].getLast? = some 10) ∧
    ((rl_is_blocked ⟨2, 60, 300⟩ 100
        (rl_record_failures ⟨2, 60, 300⟩ [0, 10] ⟨[], none⟩)).1 = true ∧
     (rl_is_blocked ⟨2, 60, 300⟩ 400
        (rl_record_failures ⟨2, 60, 300⟩ [0, 10] ⟨[], none⟩)).1 = false ∧
     (rl_record_attempt ⟨2, 60, 300⟩ 8 true ⟨[5], some 7⟩ = ⟨[], none⟩ ∧
      (rl_is_blocked ⟨2, 60, 300⟩ 9 (rl_record_attempt ⟨2, 60, 300⟩ 8 true ⟨[5], some 7⟩)).1 =
        false)) :=
  ⟨⟨by decide, by decide, by decide, by decide⟩,
   ⟨(rate_limiter_block_and_clear ⟨2, 60, 300⟩ [0, 10] 10 (by decide) (by decide)
       (by decide) (by decide)).1 100 (by decide),
    (rate_limiter_block_and_clear ⟨2, 60, 300⟩ [0, 10] 10 (by decide) (by decide)
       (by decide) (by decide)).2.1 400 (by decide),
    (rate_limiter_block_and_clear ⟨2, 60, 300⟩ [0, 10] 10 (by decide) (by decide)
       (by decide) (by decide)).2.2 ⟨[5], some 7⟩ 8 9⟩⟩
